import Mathlib

/-!
Shallow embedding of the authentication-session subsystem of the repository
(mobile+OTP auth controller embedded in `src/routes/workerRoutes.js`, the
email login variants in `src/routes/workerRoutes.js` and
`src/controllers/auth.controller.js`, and the session/user data model of
`src/models/user.model.js`).

Timestamps (`Date`) are milliseconds since the epoch, modelled as `Nat`.
MongoDB identifiers (`_id` of users and of session subdocuments) and the
random refresh correlation identifiers are modelled as `Nat`s drawn from a
strictly increasing per-store supply, so that freshness is distinctness.
-/

namespace Backend1

/-- One device session, mirroring `sessionSchema` in `src/models/user.model.js`
(`deviceInfo`, `refreshTokenHash`, `createdAt`, `lastUsedAt`, `expiresAt`)
together with the implicit mongoose subdocument identifier `_id` (`sid`). -/
structure Session where
  sid : Nat
  deviceInfo : String
  refreshTokenHash : Nat
  createdAt : Nat
  lastUsedAt : Nat
  expiresAt : Nat
deriving DecidableEq

/-- One principal record, mirroring `userSchema` in `src/models/user.model.js`
restricted to the fields the session subsystem reads or writes. -/
structure UserRec where
  uid : Nat
  mobile : Option String
  email : Option String
  passwordHash : Option String
  role : String
  sessions : List Session
  lastLogin : Option Nat
deriving DecidableEq

/-- The authoritative store: the user collection plus the identifier supply
(`nextId`) from which fresh MongoDB ids and fresh refresh correlation
identifiers are drawn. -/
structure Store where
  users : List UserRec
  nextId : Nat
deriving DecidableEq

/-- Draw a fresh identifier from the store's supply (models MongoDB assigning
a fresh `_id` on save). -/
def freshId (st : Store) : Nat × Store :=
  (st.nextId, { st with nextId := st.nextId + 1 })

/-- Modelled from the spec: `genRefreshId` of `src/utils/token.js` (absent
from `src/`) returns a fresh random correlation identifier (§4.4 "fresh
random correlation identifier"); randomness is idealized as drawing the next
value from the store's strictly increasing supply, so that a freshly drawn
identifier differs from every identifier drawn before. -/
def genRefreshId (st : Store) : Nat × Store :=
  freshId st

/-- `cryptoHash` of the auth controllers: SHA-256 hex digest of the
correlation identifier. The digest is idealized as an injective function
with no fixed points (the two properties of a collision-resistant one-way
hash the protocol relies on); the bit-level definition of SHA-256 is
irrelevant to every claim. -/
def cryptoHash (rid : Nat) : Nat :=
  2 * rid + 1

/-- Modelled from the spec: access tokens of `src/utils/token.js` (absent
from `src/`) are signed assertions of principal id, role, and expiry
(§3 "Access Token"). -/
structure AToken where
  sub : Nat
  role : String
  exp : Nat
deriving DecidableEq

/-- Modelled from the spec: refresh tokens of `src/utils/token.js` (absent
from `src/`) are signed assertions of principal id, correlation identifier
and expiry (§3 "Refresh Token"); a token is either well-signed or
malformed/forged. -/
inductive RToken where
  | signed : Nat → Nat → Nat → RToken
  | malformed : String → RToken
deriving DecidableEq

/-- Payload returned by a successful refresh-token validation. -/
structure RPayload where
  sub : Nat
  rid : Nat
deriving DecidableEq

/-- Modelled from the spec: fixed long TTL of refresh tokens (§4.2,
weeks-scale; the controllers use 30 days for the session `expiresAt` and the
cookie `maxAge`, so the same constant is used here). -/
def REFRESH_TTL_MS : Nat := 30 * 24 * 3600 * 1000

/-- Modelled from the spec: fixed short TTL of access tokens (§4.2,
minutes-scale; the exact value is immaterial to every claim). -/
def ACCESS_TTL_MS : Nat := 15 * 60 * 1000

/-- Modelled from the spec: `signAccess` of `src/utils/token.js` (absent from
`src/`): mint an access token for a principal and role (§4.2
`issueAccess`). -/
def signAccess (sub : Nat) (role : String) (now : Nat) : AToken :=
  { sub := sub, role := role, exp := now + ACCESS_TTL_MS }

/-- Modelled from the spec: `signRefresh` of `src/utils/token.js` (absent
from `src/`): mint a signed refresh token carrying the principal id and the
correlation identifier (§4.2 `issueRefresh`). -/
def signRefresh (sub rid now : Nat) : RToken :=
  RToken.signed sub rid (now + REFRESH_TTL_MS)

/-- Modelled from the spec: `verifyRefresh` of `src/utils/token.js` (absent
from `src/`): validation fails closed on a malformed/forged token or on an
expired one, otherwise returns the embedded payload (§4.2 `validate`). -/
def verifyRefresh (t : RToken) (now : Nat) : Option RPayload :=
  match t with
  | RToken.signed sub rid exp => if now < exp then some { sub := sub, rid := rid } else none
  | RToken.malformed _ => none

/-- Modelled from the spec: `hashPassword` of `src/utils/password.js` (absent
from `src/`), an injective one-way transform (§4.1); the per-call salt is
immaterial to every claim and omitted. -/
def hashPassword (p : String) : String :=
  "$h$" ++ p

/-- Modelled from the spec: `verifyPassword` of `src/utils/password.js`
(absent from `src/`): compares a candidate against a stored digest and
"returns false on any malformed digest rather than raising" (§4.1), which
covers the missing-digest case. -/
def verifyPassword (digest : Option String) (candidate : String) : Bool :=
  match digest with
  | some d => d == hashPassword candidate
  | none => false

/-- JS truthiness of an optional string argument: `undefined` and `""` are
falsy (models the `if (!x)` request-validation checks). -/
def falsyStr (v : Option String) : Bool :=
  match v with
  | some s => s == ""
  | none => true

/-- Models the JS `x || d` default for string-valued fields (`undefined` and
`""` fall through to the default). -/
def orDefault (v : Option String) (d : String) : String :=
  match v with
  | some s => if s == "" then d else s
  | none => d

/-- The transport-level cookie effect of a response: no cookie header, a
`res.cookie(COOKIE_NAME, …)` set, or a `res.clearCookie(COOKIE_NAME)`. -/
inductive CookieEff where
  | noop : CookieEff
  | set : RToken → CookieEff
  | clear : CookieEff
deriving DecidableEq

/-- HTTP response, restricted to the parts of the JSON bodies the claims are
about (status, `error`, `code`, `success`, `message`, the returned access
token) and the cookie effect. -/
structure Resp where
  status : Nat
  error : Option String := none
  code : Option String := none
  success : Bool := false
  message : Option String := none
  access : Option AToken := none
  cookie : CookieEff := CookieEff.noop
deriving DecidableEq

/-- `User.findById(id)`. -/
def findById (st : Store) (uid : Nat) : Option UserRec :=
  st.users.find? (fun u => u.uid == uid)

/-- `User.findOne({ mobile })`. -/
def findByMobile (st : Store) (m : String) : Option UserRec :=
  st.users.find? (fun u => u.mobile == some m)

/-- `User.findOne({ email })`. -/
def findByEmail (st : Store) (e : String) : Option UserRec :=
  st.users.find? (fun u => u.email == some e)

/-- `user.save()`: document-level upsert of one user record into the
collection, keyed by `_id`. -/
def saveUser (st : Store) (u : UserRec) : Store :=
  if st.users.any (fun v => v.uid == u.uid) then
    { st with users := st.users.map (fun v => if v.uid == u.uid then u else v) }
  else
    { st with users := st.users ++ [u] }

/-- `email.toLowerCase()` (character-wise, over the string's character
list). -/
def lowerStr (s : String) : String :=
  String.mk (s.data.map Char.toLower)

/-- `if (user.sessions.length > 5) user.sessions = user.sessions.slice(-5);`
(the session-cap step of every login variant). -/
def capSessions (ss : List Session) : List Session :=
  if ss.length > 5 then ss.drop (ss.length - 5) else ss

/-- `HARD_CODED_OTP` of the auth controllers. -/
def HARD_CODED_OTP : String := "123456"

/-- The shared tail of every login variant (`workerRoutes.js` login lines
687–729, email login lines 979–1022, `auth.controller.js` lines 58–105):
mint the access token, generate a fresh correlation identifier, sign the
refresh token, push a new session holding `cryptoHash rid`, cap the list at
5, set `lastLogin`, save, set the refresh cookie and answer with the access
token. -/
def loginSessionMint (u : UserRec) (devInfo userAgent : Option String) (now : Nat)
    (st : Store) : Resp × Store :=
  let access := signAccess u.uid u.role now
  let g := genRefreshId st
  let rid := g.fst
  let st1 := g.snd
  let rtok := signRefresh u.uid rid now
  let hashed := cryptoHash rid
  let f := freshId st1
  let sid := f.fst
  let st2 := f.snd
  let sess : Session :=
    { sid := sid
      deviceInfo := orDefault devInfo (orDefault userAgent "Unknown device")
      refreshTokenHash := hashed
      createdAt := now
      lastUsedAt := now
      expiresAt := now + REFRESH_TTL_MS }
  let ss := capSessions (u.sessions ++ [sess])
  let u1 := { u with sessions := ss, lastLogin := some now }
  ({ status := 200, success := true, access := some access, cookie := CookieEff.set rtok },
    saveUser st2 u1)

/-- `login` (mobile + OTP) of `src/routes/workerRoutes.js` lines 656–737:
validate presence of mobile and otp, check the OTP against the fixed value,
find or create the user (role from the request or the `"customer"` default),
then mint a session. -/
def login (mobile otp roleReq devInfo userAgent : Option String) (now : Nat)
    (st : Store) : Resp × Store :=
  if falsyStr mobile || falsyStr otp then
    ({ status := 400, error := some "Mobile number and OTP are required" }, st)
  else if otp.getD "" != HARD_CODED_OTP then
    ({ status := 401, error := some "Invalid OTP" }, st)
  else
    match findByMobile st (mobile.getD "") with
    | some u => loginSessionMint u devInfo userAgent now st
    | none =>
      let u0 : UserRec :=
        { uid := st.nextId
          mobile := some (mobile.getD "")
          email := none
          passwordHash := none
          role := orDefault roleReq "customer"
          sessions := []
          lastLogin := none }
      let st1 := saveUser { st with nextId := st.nextId + 1 } u0
      loginSessionMint u0 devInfo userAgent now st1

/-- Update the first session whose stored hash is `h` to carry the new hash
`nh` and last-used time `now` (the in-place mutation of the session object
returned by `user.sessions.find(...)` in the refresh handler). -/
def replaceFirstHash : List Session → Nat → Nat → Nat → List Session
  | [], _, _, _ => []
  | s :: ss, h, nh, now =>
    if s.refreshTokenHash == h then
      { s with refreshTokenHash := nh, lastUsedAt := now } :: ss
    else
      s :: replaceFirstHash ss h nh now

/-- `refresh` of `src/routes/workerRoutes.js` lines 742–800: read the cookie
token, validate it, look the principal up, look the session up by the hash
of the correlation identifier, reject and prune an expired session, and
otherwise rotate (fresh correlation identifier, new refresh cookie, new
stored hash plus last-used timestamp, fresh access token). -/
def refresh (cookieTok : Option RToken) (now : Nat) (st : Store) : Resp × Store :=
  match cookieTok with
  | none =>
    ({ status := 401, error := some "No refresh token provided",
       code := some "NO_REFRESH_TOKEN" }, st)
  | some tok =>
    match verifyRefresh tok now with
    | none =>
      ({ status := 401, error := some "Invalid or expired refresh token",
         code := some "INVALID_REFRESH_TOKEN", cookie := CookieEff.clear }, st)
    | some payload =>
      match findById st payload.sub with
      | none =>
        ({ status := 401, error := some "User not found", cookie := CookieEff.clear }, st)
      | some u =>
        let hashed := cryptoHash payload.rid
        match u.sessions.find? (fun s => s.refreshTokenHash == hashed) with
        | none =>
          ({ status := 401, error := some "Session not found", cookie := CookieEff.clear }, st)
        | some sess =>
          if sess.expiresAt < now then
            let u1 := { u with sessions :=
              u.sessions.filter (fun s => s.refreshTokenHash != hashed) }
            ({ status := 401, error := some "Session expired", cookie := CookieEff.clear },
              saveUser st u1)
          else
            let g := genRefreshId st
            let newRid := g.fst
            let st1 := g.snd
            let newRefresh := signRefresh u.uid newRid now
            let u1 := { u with sessions :=
              (replaceFirstHash u.sessions hashed (cryptoHash newRid) now) }
            let newAccess := signAccess u.uid u.role now
            ({ status := 200, success := true, access := some newAccess,
               cookie := CookieEff.set newRefresh }, saveUser st1 u1)

/-- `logout` of `src/routes/workerRoutes.js` lines 805–827: best-effort
removal of the matching session (any validation or lookup failure is
swallowed), then always clear the cookie and answer success. -/
def logout (cookieTok : Option RToken) (now : Nat) (st : Store) : Resp × Store :=
  let st1 :=
    match cookieTok with
    | none => st
    | some tok =>
      match verifyRefresh tok now with
      | none => st
      | some payload =>
        match findById st payload.sub with
        | none => st
        | some u =>
          let hashed := cryptoHash payload.rid
          saveUser st
            { u with sessions := u.sessions.filter (fun s => s.refreshTokenHash != hashed) }
  ({ status := 200, success := true, message := some "Logged out successfully",
     cookie := CookieEff.clear }, st1)

/-- `revokeSession` of `src/routes/workerRoutes.js` lines 864–881: filter the
named session out; if nothing was filtered answer 404 without saving,
otherwise save and answer success. -/
def revokeSession (userId sessionId : Nat) (st : Store) : Resp × Store :=
  match findById st userId with
  | none => ({ status := 404, error := some "User not found" }, st)
  | some u =>
    let before := u.sessions.length
    let ss := u.sessions.filter (fun s => s.sid != sessionId)
    if ss.length == before then
      ({ status := 404, error := some "Session not found" }, st)
    else
      ({ status := 200, success := true, message := some "Session revoked successfully" },
        saveUser st { u with sessions := ss })

/-- email+password `login` of `src/routes/workerRoutes.js` lines 956–1023:
unknown email answers 404 `"Invalid credentials"`, wrong password answers
401 `"Invalid credentials"`, success mints a session. -/
def loginEmail (email password devInfo userAgent : Option String) (now : Nat)
    (st : Store) : Resp × Store :=
  if falsyStr email || falsyStr password then
    ({ status := 400, error := some "Email and password are required" }, st)
  else
    match findByEmail st (lowerStr (email.getD "")) with
    | none => ({ status := 404, error := some "Invalid credentials" }, st)
    | some u =>
      if verifyPassword u.passwordHash (password.getD "") then
        loginSessionMint u devInfo userAgent now st
      else
        ({ status := 401, error := some "Invalid credentials" }, st)

/-- `emailLogin` of `src/controllers/auth.controller.js` lines 191–279:
unknown email answers 401 `"Invalid email or password"`, a password-less
(mobile-only) account answers 401 `"This account uses mobile login"`, wrong
password answers 401 `"Invalid email or password"`, success mints a
session. -/
def emailLoginCtrl (email password devInfo userAgent : Option String) (now : Nat)
    (st : Store) : Resp × Store :=
  if falsyStr email || falsyStr password then
    ({ status := 400, error := some "Email and password are required" }, st)
  else
    match findByEmail st (lowerStr (email.getD "")) with
    | none => ({ status := 401, error := some "Invalid email or password" }, st)
    | some u =>
      match u.passwordHash with
      | none => ({ status := 401, error := some "This account uses mobile login" }, st)
      | some d =>
        if verifyPassword (some d) (password.getD "") then
          loginSessionMint u devInfo userAgent now st
        else
          ({ status := 401, error := some "Invalid email or password" }, st)

/-- Every stored session hash is in the image of the one-way hash (the raw
correlation identifier is never persisted). -/
def sessionHashed (s : Session) : Prop :=
  ∃ r, s.refreshTokenHash = cryptoHash r

/-- `sessionHashed` for every session of every user of the store. -/
def storeHashed (st : Store) : Prop :=
  ∀ u, u ∈ st.users → ∀ s, s ∈ u.sessions → sessionHashed s

/-- The session record pushed by a login minted against store `st` at time
`now` (correlation identifier `st.nextId`, subdocument id `st.nextId + 1`). -/
def pushedSession (devInfo userAgent : Option String) (now : Nat) (st : Store) : Session :=
  { sid := st.nextId + 1
    deviceInfo := orDefault devInfo (orDefault userAgent "Unknown device")
    refreshTokenHash := cryptoHash st.nextId
    createdAt := now
    lastUsedAt := now
    expiresAt := now + REFRESH_TTL_MS }

/-! ### Concrete fixtures used to evaluate the operations at specific inputs -/

/-- A live session of user 1 whose stored hash is the hash of correlation
identifier 5. -/
def sA : Session :=
  { sid := 7, deviceInfo := "phone", refreshTokenHash := cryptoHash 5,
    createdAt := 0, lastUsedAt := 0, expiresAt := 1000 }

/-- A second live session of user 1 (correlation identifier 6). -/
def sB : Session :=
  { sid := 8, deviceInfo := "laptop", refreshTokenHash := cryptoHash 6,
    createdAt := 1, lastUsedAt := 1, expiresAt := 1000 }

/-- A session of user 3 that expires exactly at time 100. -/
def sC : Session :=
  { sid := 9, deviceInfo := "tablet", refreshTokenHash := cryptoHash 9,
    createdAt := 0, lastUsedAt := 0, expiresAt := 100 }

/-- User 1: a mobile principal with two live sessions. -/
def uA : UserRec :=
  { uid := 1, mobile := some "9990001111", email := none, passwordHash := none,
    role := "customer", sessions := [sA, sB], lastLogin := none }

/-- User 2: a principal with no sessions. -/
def uB : UserRec :=
  { uid := 2, mobile := some "8880002222", email := none, passwordHash := none,
    role := "worker", sessions := [], lastLogin := none }

/-- User 3: owner of the boundary-expiry session `sC`. -/
def uC : UserRec :=
  { uid := 3, mobile := some "7770003333", email := none, passwordHash := none,
    role := "customer", sessions := [sC], lastLogin := none }

/-- User 4: an email principal with a stored password digest. -/
def uD : UserRec :=
  { uid := 4, mobile := none, email := some "a@b.c",
    passwordHash := some (hashPassword "goodpass"), role := "user",
    sessions := [], lastLogin := none }

/-- The fixture store. -/
def stW : Store :=
  { users := [uA, uB, uC, uD], nextId := 20 }

/-- A session with identifier `i`, used to build a user at the session cap. -/
def mkSess (i : Nat) : Session :=
  { sid := i, deviceInfo := "", refreshTokenHash := cryptoHash i,
    createdAt := i, lastUsedAt := i, expiresAt := 1000 }

/-- User 5: a principal already holding 5 sessions (the cap). -/
def uE : UserRec :=
  { uid := 5, mobile := some "5550005555", email := none, passwordHash := none,
    role := "customer", sessions := [mkSess 1, mkSess 2, mkSess 3, mkSess 4, mkSess 5],
    lastLogin := none }

/-- A store whose single user is at the session cap. -/
def stV : Store :=
  { users := [uE], nextId := 100 }

/-! ### Helper lemmas about the store and list operations -/

theorem cryptoHash_inj {a b : Nat} (h : cryptoHash a = cryptoHash b) : a = b := by
  unfold cryptoHash at h
  omega

theorem cryptoHash_ne_raw (r : Nat) : cryptoHash r ≠ r := by
  unfold cryptoHash
  omega

theorem uid_of_findById {st : Store} {i : Nat} {u : UserRec}
    (h : findById st i = some u) : u.uid = i := by
  have := List.find?_some h
  exact eq_of_beq this

theorem mem_of_findById {st : Store} {i : Nat} {u : UserRec}
    (h : findById st i = some u) : u ∈ st.users :=
  List.mem_of_find?_eq_some h

theorem mem_of_findByMobile {st : Store} {m : String} {u : UserRec}
    (h : findByMobile st m = some u) : u ∈ st.users :=
  List.mem_of_find?_eq_some h

theorem mem_of_findByEmail {st : Store} {e : String} {u : UserRec}
    (h : findByEmail st e = some u) : u ∈ st.users :=
  List.mem_of_find?_eq_some h

theorem find?_map_replace (l : List UserRec) (i : Nat) (v : UserRec) (hvi : v.uid = i)
    (u : UserRec) (hf : l.find? (fun w => w.uid == i) = some u) :
    (l.map (fun w => if w.uid == v.uid then v else w)).find? (fun w => w.uid == i) = some v := by
  induction l with
  | nil => simp at hf
  | cons w l ih =>
    by_cases hw : (w.uid == i) = true
    · have hw2 : (w.uid == v.uid) = true := by
        rw [hvi]
        exact hw
      simp only [List.map_cons, List.find?_cons, hw2, if_pos rfl]
      have hv2 : (v.uid == i) = true := by
        simp [hvi]
      simp [hv2]
    · have hw2 : (w.uid == v.uid) = false := by
        rw [hvi]
        exact Bool.eq_false_iff.mpr (fun hh => hw hh)
      have hf2 : l.find? (fun w => w.uid == i) = some u := by
        rw [List.find?_cons] at hf
        simp only [hw] at hf
        exact hf
      have := ih hf2
      simp only [List.map_cons, List.find?_cons, hw2]
      simp only [Bool.false_eq_true, if_false, hw]
      simpa using this

theorem findById_saveUser_replace {st : Store} {i : Nat} {u v : UserRec}
    (hf : findById st i = some u) (hvi : v.uid = i) :
    findById (saveUser st v) i = some v := by
  have hmem : u ∈ st.users := mem_of_findById hf
  have hui : u.uid = i := uid_of_findById hf
  have hany : st.users.any (fun w => w.uid == v.uid) = true := by
    refine List.any_eq_true.mpr ⟨u, hmem, ?_⟩
    simp [hui, hvi]
  unfold saveUser
  rw [if_pos hany]
  exact find?_map_replace st.users i v hvi u hf

theorem mem_saveUser_cases {st : Store} {u w : UserRec}
    (h : w ∈ (saveUser st u).users) : w ∈ st.users ∨ w = u := by
  unfold saveUser at h
  by_cases hany : st.users.any (fun v => v.uid == u.uid) = true
  · rw [if_pos hany] at h
    simp only [List.mem_map] at h
    obtain ⟨v, hv, hveq⟩ := h
    by_cases hvu : (v.uid == u.uid) = true
    · right
      rw [if_pos hvu] at hveq
      exact hveq.symm
    · left
      rw [if_neg hvu] at hveq
      rw [← hveq]
      exact hv
  · rw [if_neg hany] at h
    rcases List.mem_append.mp h with h1 | h2
    · exact Or.inl h1
    · right
      simpa using h2

theorem mem_saveUser_frame {st : Store} {u w : UserRec}
    (hw : w ∈ st.users) (hne : w.uid ≠ u.uid) : w ∈ (saveUser st u).users := by
  unfold saveUser
  by_cases hany : st.users.any (fun v => v.uid == u.uid) = true
  · rw [if_pos hany]
    have heq : (fun v => if v.uid == u.uid then u else v) w = w := by
      simp only [beq_eq_false_iff_ne.mpr hne]
      simp
    have hmm := List.mem_map_of_mem (fun v => if v.uid == u.uid then u else v) hw
    rw [heq] at hmm
    exact hmm
  · rw [if_neg hany]
    exact List.mem_append.mpr (Or.inl hw)

theorem self_mem_saveUser (st : Store) (u : UserRec) : u ∈ (saveUser st u).users := by
  unfold saveUser
  by_cases hany : st.users.any (fun v => v.uid == u.uid) = true
  · rw [if_pos hany]
    obtain ⟨v, hv, hveq⟩ := List.any_eq_true.mp hany
    have heq : (fun w => if w.uid == u.uid then u else w) v = u := by
      simp only [hveq]
      simp
    have hmm := List.mem_map_of_mem (fun w => if w.uid == u.uid then u else w) hv
    rw [heq] at hmm
    exact hmm
  · rw [if_neg hany]
    exact List.mem_append.mpr (Or.inr (by simp))

theorem replaceFirstHash_decomp (ss : List Session) (h nh now : Nat) (s : Session)
    (hf : ss.find? (fun x => x.refreshTokenHash == h) = some s) :
    ∃ pre post, ss = pre ++ s :: post ∧ (∀ t ∈ pre, t.refreshTokenHash ≠ h) ∧
      replaceFirstHash ss h nh now =
        pre ++ { s with refreshTokenHash := nh, lastUsedAt := now } :: post := by
  induction ss with
  | nil => simp at hf
  | cons t ts ih =>
    by_cases ht : (t.refreshTokenHash == h) = true
    · have hts : t = s := by
        rw [List.find?_cons, ht] at hf
        simpa using hf
      subst hts
      refine ⟨[], ts, by simp, ?_, ?_⟩
      · intro x hx
        simp at hx
      · simp [replaceFirstHash, ht]
    · have hf2 : ts.find? (fun x => x.refreshTokenHash == h) = some s := by
        rw [List.find?_cons] at hf
        simp only [ht] at hf
        exact hf
      obtain ⟨pre, post, he, hpre, hrep⟩ := ih hf2
      refine ⟨t :: pre, post, ?_, ?_, ?_⟩
      · simp [he]
      · intro x hx
        rcases List.mem_cons.mp hx with h1 | h2
        · rw [h1]
          exact fun hh => ht (beq_iff_eq.mpr hh)
        · exact hpre x h2
      · simp only [replaceFirstHash, ht]
        simp only [Bool.false_eq_true, if_false, List.cons_append, List.cons.injEq, true_and]
        exact hrep

theorem capSessions_length_le (ss : List Session) : (capSessions ss).length ≤ 5 := by
  unfold capSessions
  by_cases hl : ss.length > 5
  · rw [if_pos hl]
    simp only [List.length_drop]
    omega
  · rw [if_neg hl]
    omega

theorem capSessions_eq_of_small {ss : List Session} (h : ¬ ss.length > 5) :
    capSessions ss = ss := by
  unfold capSessions
  rw [if_neg h]

theorem capSessions_six {ss : List Session} (h : ss.length = 6) :
    capSessions ss = ss.drop 1 := by
  unfold capSessions
  rw [if_pos (by omega), h]

theorem mem_capSessions {ss : List Session} {x : Session} (h : x ∈ capSessions ss) :
    x ∈ ss := by
  unfold capSessions at h
  by_cases hl : ss.length > 5
  · rw [if_pos hl] at h
    exact List.mem_of_mem_drop h
  · rwa [if_neg hl] at h

theorem self_mem_capSessions_append (ss : List Session) (x : Session) :
    x ∈ capSessions (ss ++ [x]) := by
  unfold capSessions
  by_cases hl : (ss ++ [x]).length > 5
  · rw [if_pos hl]
    have hle : (ss ++ [x]).length - 5 ≤ ss.length := by
      simp only [List.length_append, List.length_singleton]
      omega
    rw [List.drop_append_of_le_length hle]
    exact List.mem_append.mpr (Or.inr (by simp))
  · rw [if_neg hl]
    exact List.mem_append.mpr (Or.inr (by simp))

theorem length_filter_lt_of_mem {p : Session → Bool} {l : List Session} {s : Session}
    (hs : s ∈ l) (hp : p s = false) : (l.filter p).length < l.length := by
  induction l with
  | nil => simp at hs
  | cons t ts ih =>
    rcases List.mem_cons.mp hs with h1 | h2
    · rw [h1] at hp
      simp only [List.filter_cons, hp]
      simp only [Bool.false_eq_true, if_false, List.length_cons]
      have := List.length_filter_le p ts
      omega
    · by_cases ht : p t = true
      · simp only [List.filter_cons, ht, if_pos rfl, List.length_cons]
        exact Nat.succ_lt_succ (ih h2)
      · have ht2 : p t = false := Bool.eq_false_iff.mpr ht
        simp only [List.filter_cons, ht2]
        simp only [Bool.false_eq_true, if_false, List.length_cons]
        have := ih h2
        omega

theorem verifyRefresh_signed {sub rid exp now : Nat} (hnow : now < exp) :
    verifyRefresh (RToken.signed sub rid exp) now = some { sub := sub, rid := rid } := by
  simp [verifyRefresh, hnow]

theorem refresh_success_eq {st : Store} {sub rid exp now : Nat} {u : UserRec} {s : Session}
    (hfind : findById st sub = some u)
    (hsess : u.sessions.find? (fun x => x.refreshTokenHash == cryptoHash rid) = some s)
    (hexp : ¬ s.expiresAt < now) (hnow : now < exp) :
    refresh (some (RToken.signed sub rid exp)) now st =
      ({ status := 200, success := true,
         access := some (signAccess u.uid u.role now),
         cookie := CookieEff.set (signRefresh u.uid st.nextId now) },
       saveUser { st with nextId := st.nextId + 1 }
         { u with sessions :=
             (replaceFirstHash u.sessions (cryptoHash rid) (cryptoHash st.nextId) now) }) := by
  unfold refresh
  simp only [verifyRefresh_signed hnow, hfind, hsess, if_neg hexp, genRefreshId, freshId]

theorem refresh_expired_eq {st : Store} {sub rid exp now : Nat} {u : UserRec} {s : Session}
    (hfind : findById st sub = some u)
    (hsess : u.sessions.find? (fun x => x.refreshTokenHash == cryptoHash rid) = some s)
    (hexp : s.expiresAt < now) (hnow : now < exp) :
    refresh (some (RToken.signed sub rid exp)) now st =
      ({ status := 401, error := some "Session expired", cookie := CookieEff.clear },
       saveUser st
         { u with sessions :=
             u.sessions.filter (fun x => x.refreshTokenHash != cryptoHash rid) }) := by
  unfold refresh
  simp only [verifyRefresh_signed hnow, hfind, hsess, if_pos hexp]

theorem refresh_notfound_eq {st : Store} {sub rid exp now : Nat} {u : UserRec}
    (hfind : findById st sub = some u)
    (hsess : u.sessions.find? (fun x => x.refreshTokenHash == cryptoHash rid) = none)
    (hnow : now < exp) :
    refresh (some (RToken.signed sub rid exp)) now st =
      ({ status := 401, error := some "Session not found", cookie := CookieEff.clear }, st) := by
  unfold refresh
  simp only [verifyRefresh_signed hnow, hfind, hsess]


theorem replaceFirstHash_find?_none {ss : List Session} {h nh now : Nat} {s : Session}
    (hf : ss.find? (fun x => x.refreshTokenHash == h) = some s)
    (hcount : ss.countP (fun x => x.refreshTokenHash == h) ≤ 1)
    (hne : nh ≠ h) :
    (replaceFirstHash ss h nh now).find? (fun x => x.refreshTokenHash == h) = none := by
  obtain ⟨pre, post, he, hpre, hrep⟩ := replaceFirstHash_decomp ss h nh now s hf
  have hpred : (s.refreshTokenHash == h) = true := by simpa using List.find?_some hf
  have hcpre : pre.countP (fun x => x.refreshTokenHash == h) = 0 :=
    List.countP_eq_zero.mpr (fun a ha => by
      simp only [Bool.not_eq_true, beq_eq_false_iff_ne]
      exact hpre a ha)
  have hpost : ∀ x ∈ post, ¬ x.refreshTokenHash = h := by
    rw [he, List.countP_append] at hcount
    simp only [List.countP_cons, hpred, hcpre] at hcount
    simpa using hcount
  rw [hrep]
  refine List.find?_eq_none.mpr ?_
  intro x hx
  simp only [Bool.not_eq_true, beq_eq_false_iff_ne]
  rcases List.mem_append.mp hx with h1 | h2
  · exact hpre x h1
  · rcases List.mem_cons.mp h2 with h3 | h4
    · rw [h3]
      exact hne
    · exact hpost x h4

/-- C1: refresh rotation is single-use. If a refresh with a well-signed token
for correlation identifier `rid` succeeds (the session with `cryptoHash rid`
is found and not expired), then a second refresh presenting the same token
against the resulting store fails with status 401 `"Session not found"`,
mints no access token, and leaves the store untouched. The hypotheses state
that the matching session is unique for its hash and that `rid` was not the
next identifier the supply was about to produce — both are facts of every
reachable store, where stored hashes come from pairwise distinct generated
identifiers. -/
theorem claim1_refresh_single_use
    (st : Store) (sub rid exp now now2 : Nat) (u : UserRec) (s : Session)
    (hfind : findById st sub = some u)
    (hsess : u.sessions.find? (fun x => x.refreshTokenHash == cryptoHash rid) = some s)
    (hcount : u.sessions.countP (fun x => x.refreshTokenHash == cryptoHash rid) ≤ 1)
    (hfresh : rid ≠ st.nextId)
    (hexp : ¬ s.expiresAt < now) (hnow : now < exp) (hnow2 : now2 < exp) :
    (refresh (some (RToken.signed sub rid exp)) now st).fst.status = 200 ∧
    refresh (some (RToken.signed sub rid exp)) now2
        (refresh (some (RToken.signed sub rid exp)) now st).snd =
      ({ status := 401, error := some "Session not found", cookie := CookieEff.clear },
       (refresh (some (RToken.signed sub rid exp)) now st).snd) := by
  have h1 := refresh_success_eq hfind hsess hexp hnow
  have husub : u.uid = sub := uid_of_findById hfind
  constructor
  · rw [h1]
  · rw [h1]
    have hfind2 : findById { st with nextId := st.nextId + 1 } sub = some u := hfind
    have hfind3 :
        findById
          (saveUser { st with nextId := st.nextId + 1 }
            { u with sessions :=
                (replaceFirstHash u.sessions (cryptoHash rid) (cryptoHash st.nextId) now) }) sub =
          some { u with sessions :=
            (replaceFirstHash u.sessions (cryptoHash rid) (cryptoHash st.nextId) now) } :=
      findById_saveUser_replace hfind2 husub
    have hne : cryptoHash st.nextId ≠ cryptoHash rid := by
      intro hh
      exact hfresh (cryptoHash_inj hh).symm
    have hnone :
        (replaceFirstHash u.sessions (cryptoHash rid) (cryptoHash st.nextId) now).find?
          (fun x => x.refreshTokenHash == cryptoHash rid) = none :=
      replaceFirstHash_find?_none hsess hcount hne
    exact refresh_notfound_eq hfind3 hnone hnow2

theorem claim1_refresh_single_use_witness :
    (refresh (some (RToken.signed 1 5 2000)) 10 stW).fst.status = 200 ∧
    refresh (some (RToken.signed 1 5 2000)) 30
        (refresh (some (RToken.signed 1 5 2000)) 10 stW).snd =
      ({ status := 401, error := some "Session not found", cookie := CookieEff.clear },
       (refresh (some (RToken.signed 1 5 2000)) 10 stW).snd) :=
  claim1_refresh_single_use stW 1 5 2000 10 30 uA sA rfl rfl (by decide) (by decide)
    (by decide) (by decide) (by decide)



/-- C2 counterexample: at the expiry boundary the code does not treat the
session as expired. In the fixture store, user 3's session `sC` expires at
time 100 and is matched by the presented token's hash, and the claim
(Expired means now ≥ expiry, detected on refresh) requires the refresh at
`now = 100` to fail with `SessionExpired`; instead the code's strict
comparison `session.expiresAt < new Date()` lets it succeed and rotate. -/
theorem claim2_expiry_boundary_counterexample :
    findById stW 3 = some uC ∧
    uC.sessions.find? (fun x => x.refreshTokenHash == cryptoHash 9) = some sC ∧
    sC.expiresAt = 100 ∧
    (refresh (some (RToken.signed 3 9 2000)) 100 stW).fst.status = 200 ∧
    (refresh (some (RToken.signed 3 9 2000)) 100 stW).fst.success = true ∧
    (refresh (some (RToken.signed 3 9 2000)) 100 stW).fst.error = none := by
  refine ⟨rfl, rfl, rfl, ?_, ?_, ?_⟩ <;> decide

/-- C2 (amended): a session is rejected as expired on refresh exactly when
`expiresAt < now` (strictly in the past, not `now ≥ expiry`): the call then
answers 401 `"Session expired"`, clears the cookie, and as a side effect the
matched session is removed from the principal's stored session list. -/
theorem claim2_expired_session_removed
    (st : Store) (sub rid exp now : Nat) (u : UserRec) (s : Session)
    (hfind : findById st sub = some u)
    (hsess : u.sessions.find? (fun x => x.refreshTokenHash == cryptoHash rid) = some s)
    (hexp : s.expiresAt < now) (hnow : now < exp) :
    (refresh (some (RToken.signed sub rid exp)) now st).fst.status = 401 ∧
    (refresh (some (RToken.signed sub rid exp)) now st).fst.error = some "Session expired" ∧
    (refresh (some (RToken.signed sub rid exp)) now st).fst.cookie = CookieEff.clear ∧
    findById (refresh (some (RToken.signed sub rid exp)) now st).snd sub =
      some { u with sessions :=
        u.sessions.filter (fun x => x.refreshTokenHash != cryptoHash rid) } ∧
    ∀ x ∈ (u.sessions.filter (fun x => x.refreshTokenHash != cryptoHash rid)),
      x.refreshTokenHash ≠ cryptoHash rid := by
  have h1 := refresh_expired_eq hfind hsess hexp hnow
  have husub : u.uid = sub := uid_of_findById hfind
  refine ⟨by rw [h1], by rw [h1], by rw [h1], ?_, ?_⟩
  · rw [h1]
    exact findById_saveUser_replace hfind husub
  · intro x hx
    have := List.of_mem_filter hx
    simpa using this

theorem claim2_expired_session_removed_witness :
    (refresh (some (RToken.signed 3 9 2000)) 101 stW).fst.status = 401 ∧
    (refresh (some (RToken.signed 3 9 2000)) 101 stW).fst.error = some "Session expired" ∧
    (refresh (some (RToken.signed 3 9 2000)) 101 stW).fst.cookie = CookieEff.clear ∧
    findById (refresh (some (RToken.signed 3 9 2000)) 101 stW).snd 3 =
      some { uC with sessions :=
        uC.sessions.filter (fun x => x.refreshTokenHash != cryptoHash 9) } ∧
    ∀ x ∈ (uC.sessions.filter (fun x => x.refreshTokenHash != cryptoHash 9)),
      x.refreshTokenHash ≠ cryptoHash 9 :=
  claim2_expired_session_removed stW 3 9 2000 101 uC sC rfl rfl (by decide) (by decide)

/-- C5: a successful refresh changes exactly the matched session's stored
hash and last-used timestamp, together; its identifier, device descriptor,
creation timestamp and expiry are unchanged, every other session of the
principal is unchanged (the lists before and after the match position are
identical), and every other user of the store is untouched. -/
theorem claim5_refresh_frame
    (st : Store) (sub rid exp now : Nat) (u : UserRec) (s : Session)
    (hfind : findById st sub = some u)
    (hsess : u.sessions.find? (fun x => x.refreshTokenHash == cryptoHash rid) = some s)
    (hexp : ¬ s.expiresAt < now) (hnow : now < exp) :
    (refresh (some (RToken.signed sub rid exp)) now st).fst.status = 200 ∧
    ∃ pre post,
      u.sessions = pre ++ s :: post ∧
      findById (refresh (some (RToken.signed sub rid exp)) now st).snd sub =
        some { u with sessions :=
          pre ++ { s with refreshTokenHash := cryptoHash st.nextId, lastUsedAt := now } :: post } ∧
      ({ s with refreshTokenHash := cryptoHash st.nextId, lastUsedAt := now } : Session).sid
        = s.sid ∧
      ({ s with refreshTokenHash := cryptoHash st.nextId, lastUsedAt := now } : Session).deviceInfo
        = s.deviceInfo ∧
      ({ s with refreshTokenHash := cryptoHash st.nextId, lastUsedAt := now } : Session).createdAt
        = s.createdAt ∧
      ({ s with refreshTokenHash := cryptoHash st.nextId, lastUsedAt := now } : Session).expiresAt
        = s.expiresAt ∧
      ∀ v ∈ st.users, v.uid ≠ sub →
        v ∈ (refresh (some (RToken.signed sub rid exp)) now st).snd.users := by
  have h1 := refresh_success_eq hfind hsess hexp hnow
  have husub : u.uid = sub := uid_of_findById hfind
  obtain ⟨pre, post, he, hpre, hrep⟩ :=
    replaceFirstHash_decomp u.sessions (cryptoHash rid) (cryptoHash st.nextId) now s hsess
  refine ⟨by rw [h1], pre, post, he, ?_, rfl, rfl, rfl, rfl, ?_⟩
  · rw [h1, hrep]
    exact findById_saveUser_replace
      (show findById { st with nextId := st.nextId + 1 } sub = some u from hfind) husub
  · intro v hv hvne
    rw [h1]
    have hvne2 : v.uid ≠ ({ u with sessions :=
        (replaceFirstHash u.sessions (cryptoHash rid) (cryptoHash st.nextId) now) } : UserRec).uid := by
      simpa [husub] using hvne
    exact mem_saveUser_frame hv hvne2

theorem claim5_refresh_frame_witness :
    (refresh (some (RToken.signed 1 5 2000)) 10 stW).fst.status = 200 ∧
    ∃ pre post,
      uA.sessions = pre ++ sA :: post ∧
      findById (refresh (some (RToken.signed 1 5 2000)) 10 stW).snd 1 =
        some { uA with sessions :=
          pre ++ { sA with refreshTokenHash := cryptoHash stW.nextId, lastUsedAt := 10 } :: post } ∧
      ({ sA with refreshTokenHash := cryptoHash stW.nextId, lastUsedAt := 10 } : Session).sid
        = sA.sid ∧
      ({ sA with refreshTokenHash := cryptoHash stW.nextId, lastUsedAt := 10 } : Session).deviceInfo
        = sA.deviceInfo ∧
      ({ sA with refreshTokenHash := cryptoHash stW.nextId, lastUsedAt := 10 } : Session).createdAt
        = sA.createdAt ∧
      ({ sA with refreshTokenHash := cryptoHash stW.nextId, lastUsedAt := 10 } : Session).expiresAt
        = sA.expiresAt ∧
      ∀ v ∈ stW.users, v.uid ≠ 1 →
        v ∈ (refresh (some (RToken.signed 1 5 2000)) 10 stW).snd.users :=
  claim5_refresh_frame stW 1 5 2000 10 uA sA rfl rfl (by decide) (by decide)



/-- C6 counterexample: the missing-token failure path of refresh does not
clear the refresh cookie — the 401 `NO_REFRESH_TOKEN` response carries no
cookie directive at all, although the claim requires every refresh failure
(including "missing token") to clear the client's refresh cookie. -/
theorem claim6_missing_token_counterexample :
    (refresh none 0 stW).fst.status = 401 ∧
    (refresh none 0 stW).fst.code = some "NO_REFRESH_TOKEN" ∧
    (refresh none 0 stW).fst.cookie = CookieEff.noop ∧
    (refresh none 0 stW).fst.cookie ≠ CookieEff.clear := by
  refine ⟨rfl, rfl, rfl, by decide⟩

/-- C6 (amended): every refresh failure on a presented token — invalid or
expired signature, unknown principal, session not found, or session expired
— clears the client's refresh cookie; only the no-token-presented 401
response carries no cookie-clearing directive. -/
theorem claim6_failure_clears_cookie
    (tok : RToken) (now : Nat) (st : Store)
    (hfail : (refresh (some tok) now st).fst.status ≠ 200) :
    (refresh (some tok) now st).fst.cookie = CookieEff.clear := by
  unfold refresh at hfail ⊢
  cases hv : verifyRefresh tok now with
  | none => simp [hv]
  | some payload =>
    simp only [hv] at hfail ⊢
    cases hf : findById st payload.sub with
    | none => simp [hf]
    | some u =>
      simp only [hf] at hfail ⊢
      cases hs : u.sessions.find? (fun s => s.refreshTokenHash == cryptoHash payload.rid) with
      | none => simp [hs]
      | some sess =>
        simp only [hs] at hfail ⊢
        by_cases hex : sess.expiresAt < now
        · simp [hex]
        · exfalso
          apply hfail
          simp [hex]

theorem claim6_failure_clears_cookie_witness :
    (refresh (some (RToken.malformed "garbage")) 0 stW).fst.status ≠ 200 ∧
    (refresh (some (RToken.malformed "garbage")) 0 stW).fst.cookie = CookieEff.clear :=
  ⟨by decide, claim6_failure_clears_cookie (RToken.malformed "garbage") 0 stW (by decide)⟩

/-- C9: revoke removes exactly the named session. If the principal has no
session with the given identifier, the call answers 404
`"Session not found"` and the store is completely unchanged; if such a
session exists, the call succeeds, the principal's stored list becomes the
original list with the named session filtered out (every session with a
different identifier is kept, every kept session has a different
identifier), and every other user of the store is untouched. -/
theorem claim9_revoke_exact
    (userId sessionId : Nat) (st : Store) (u : UserRec)
    (hfind : findById st userId = some u) :
    ((∀ s ∈ u.sessions, s.sid ≠ sessionId) →
      revokeSession userId sessionId st =
        ({ status := 404, error := some "Session not found" }, st)) ∧
    (∀ s0 ∈ u.sessions, s0.sid = sessionId →
      (revokeSession userId sessionId st).fst.status = 200 ∧
      (revokeSession userId sessionId st).fst.success = true ∧
      findById (revokeSession userId sessionId st).snd userId =
        some { u with sessions := u.sessions.filter (fun s => s.sid != sessionId) } ∧
      (∀ s ∈ u.sessions, s.sid ≠ sessionId →
        s ∈ u.sessions.filter (fun s => s.sid != sessionId)) ∧
      (∀ x ∈ u.sessions.filter (fun s => s.sid != sessionId), x.sid ≠ sessionId) ∧
      ∀ v ∈ st.users, v.uid ≠ userId →
        v ∈ (revokeSession userId sessionId st).snd.users) := by
  have husub : u.uid = userId := uid_of_findById hfind
  constructor
  · intro hnone
    have hself : u.sessions.filter (fun s => s.sid != sessionId) = u.sessions :=
      List.filter_eq_self.mpr (fun s hs => by
        simpa [bne_iff_ne] using hnone s hs)
    unfold revokeSession
    rw [hfind]
    simp only [hself, beq_self_eq_true, if_true]
  · intro s0 hs0 hsid
    have hp : ((fun s => s.sid != sessionId) s0) = false := by
      simp [hsid]
    have hlt := @length_filter_lt_of_mem (fun s => s.sid != sessionId) u.sessions s0 hs0 hp
    have hcond : ((u.sessions.filter (fun s => s.sid != sessionId)).length ==
        u.sessions.length) = false := by
      simp only [beq_eq_false_iff_ne]
      omega
    have heq : revokeSession userId sessionId st =
        ({ status := 200, success := true, message := some "Session revoked successfully" },
         saveUser st { u with sessions := u.sessions.filter (fun s => s.sid != sessionId) }) := by
      unfold revokeSession
      rw [hfind]
      simp only [hcond]
      simp
    refine ⟨by rw [heq], by rw [heq], ?_, ?_, ?_, ?_⟩
    · rw [heq]
      exact findById_saveUser_replace hfind husub
    · intro s hs hne
      exact List.mem_filter.mpr ⟨hs, by simpa [bne_iff_ne] using hne⟩
    · intro x hx
      have := List.of_mem_filter hx
      simpa [bne_iff_ne] using this
    · intro v hv hvne
      rw [heq]
      exact mem_saveUser_frame hv (by simpa [husub] using hvne)

theorem claim9_revoke_exact_witness :
    ((∀ s ∈ uA.sessions, s.sid ≠ 99) →
      revokeSession 1 99 stW =
        ({ status := 404, error := some "Session not found" }, stW)) ∧
    (∀ s0 ∈ uA.sessions, s0.sid = 99 →
      (revokeSession 1 99 stW).fst.status = 200 ∧
      (revokeSession 1 99 stW).fst.success = true ∧
      findById (revokeSession 1 99 stW).snd 1 =
        some { uA with sessions := uA.sessions.filter (fun s => s.sid != 99) } ∧
      (∀ s ∈ uA.sessions, s.sid ≠ 99 →
        s ∈ uA.sessions.filter (fun s => s.sid != 99)) ∧
      (∀ x ∈ uA.sessions.filter (fun s => s.sid != 99), x.sid ≠ 99) ∧
      ∀ v ∈ stW.users, v.uid ≠ 1 →
        v ∈ (revokeSession 1 99 stW).snd.users) :=
  claim9_revoke_exact 1 99 stW uA rfl



theorem saveUser_uid_unique {st : Store} {u x : UserRec}
    (hx : x ∈ (saveUser st u).users) (hxu : x.uid = u.uid) : x = u := by
  unfold saveUser at hx
  by_cases hany : st.users.any (fun v => v.uid == u.uid) = true
  · rw [if_pos hany] at hx
    simp only [List.mem_map] at hx
    obtain ⟨v, hv, hveq⟩ := hx
    by_cases hvu : (v.uid == u.uid) = true
    · rw [if_pos hvu] at hveq
      exact hveq.symm
    · rw [if_neg hvu] at hveq
      exfalso
      apply hvu
      rw [hveq, hxu]
      simp
  · rw [if_neg hany] at hx
    rcases List.mem_append.mp hx with h1 | h2
    · exfalso
      apply hany
      exact List.any_eq_true.mpr ⟨x, h1, by simp [hxu]⟩
    · simpa using h2

theorem find?_eq_some_of_all {α : Type} (p : α → Bool) (L : List α) (a : α)
    (ha : a ∈ L) (hpa : p a = true) (huniq : ∀ x ∈ L, p x = true → x = a) :
    L.find? p = some a := by
  induction L with
  | nil => simp at ha
  | cons x xs ih =>
    by_cases hx : p x = true
    · rw [List.find?_cons, hx]
      exact congrArg some (huniq x (by simp) hx)
    · rw [List.find?_cons]
      have hx2 : p x = false := Bool.eq_false_iff.mpr hx
      simp only [hx2, Bool.false_eq_true, if_false]
      rcases List.mem_cons.mp ha with h1 | h2
      · exfalso
        apply hx
        rw [← h1]
        exact hpa
      · exact ih h2 (fun y hy hpy => huniq y (List.mem_cons.mpr (Or.inr hy)) hpy)

theorem loginSessionMint_eq (u : UserRec) (de ua : Option String) (now : Nat) (st : Store) :
    loginSessionMint u de ua now st =
      ({ status := 200, success := true, access := some (signAccess u.uid u.role now),
         cookie := CookieEff.set (signRefresh u.uid st.nextId now) },
       saveUser { st with nextId := st.nextId + 1 + 1 }
         { u with sessions := capSessions (u.sessions ++ [pushedSession de ua now st]),
                  lastLogin := some now }) := by
  unfold loginSessionMint pushedSession genRefreshId freshId
  rfl

theorem login_found_eq (m : String) (roleReq de ua : Option String) (now : Nat)
    (st : Store) (u : UserRec) (hm : m ≠ "") (hfind : findByMobile st m = some u) :
    login (some m) (some HARD_CODED_OTP) roleReq de ua now st =
      loginSessionMint u de ua now st := by
  have h1 : (falsyStr (some m) || falsyStr (some HARD_CODED_OTP)) = false := by
    simp [falsyStr, hm, HARD_CODED_OTP]
  have h2 : ((some HARD_CODED_OTP).getD "" != HARD_CODED_OTP) = false := by
    decide
  unfold login
  simp only [h1, h2, Bool.false_eq_true, if_false]
  have h3 : (some m).getD "" = m := rfl
  rw [h3, hfind]

theorem login_create_eq (m : String) (roleReq de ua : Option String) (now : Nat)
    (st : Store) (hm : m ≠ "") (hnone : findByMobile st m = none) :
    login (some m) (some HARD_CODED_OTP) roleReq de ua now st =
      loginSessionMint
        { uid := st.nextId, mobile := some m, email := none, passwordHash := none,
          role := orDefault roleReq "customer", sessions := [], lastLogin := none }
        de ua now
        (saveUser { st with nextId := st.nextId + 1 }
          { uid := st.nextId, mobile := some m, email := none, passwordHash := none,
            role := orDefault roleReq "customer", sessions := [], lastLogin := none }) := by
  have h1 : (falsyStr (some m) || falsyStr (some HARD_CODED_OTP)) = false := by
    simp [falsyStr, hm, HARD_CODED_OTP]
  have h2 : ((some HARD_CODED_OTP).getD "" != HARD_CODED_OTP) = false := by
    decide
  unfold login
  simp only [h1, h2, Bool.false_eq_true, if_false]
  have h3 : (some m).getD "" = m := rfl
  rw [h3, hnone]

theorem mem_loginSessionMint {v u : UserRec} {de ua : Option String} {now : Nat} {st : Store}
    (hv : v ∈ (loginSessionMint u de ua now st).snd.users) :
    v ∈ st.users ∨ v.sessions.length ≤ 5 := by
  rw [loginSessionMint_eq] at hv
  rcases mem_saveUser_cases hv with h | h
  · exact Or.inl h
  · right
    rw [h]
    exact capSessions_length_le _

theorem login_sessions_bound (mo ot ro de ua : Option String) (now : Nat) (st : Store) :
    ∀ v ∈ (login mo ot ro de ua now st).snd.users, v ∈ st.users ∨ v.sessions.length ≤ 5 := by
  intro v hv
  unfold login at hv
  by_cases h1 : (falsyStr mo || falsyStr ot) = true
  · simp only [h1, if_true] at hv
    exact Or.inl hv
  · simp only [Bool.not_eq_true] at h1
    simp only [h1, Bool.false_eq_true, if_false] at hv
    by_cases h2 : (ot.getD "" != HARD_CODED_OTP) = true
    · simp only [h2, if_true] at hv
      exact Or.inl hv
    · simp only [Bool.not_eq_true] at h2
      simp only [h2, Bool.false_eq_true, if_false] at hv
      cases hf : findByMobile st (mo.getD "") with
      | some u =>
        rw [hf] at hv
        exact mem_loginSessionMint hv
      | none =>
        rw [hf] at hv
        rcases mem_loginSessionMint hv with h | h
        · rcases mem_saveUser_cases h with h3 | h3
          · exact Or.inl h3
          · right
            rw [h3]
            simp
        · exact Or.inr h

/-- C3: the session cap. Appending a session by login to a principal already
holding 5 sessions (head `s0` oldest-created, as chronological appending
guarantees) yields exactly 5 stored sessions: the head is evicted, the four
younger sessions and the freshly pushed one are kept, and the evicted
session's creation time is no later than that of any kept session.
Moreover, for every login whatsoever, every user record the call writes
holds at most 5 sessions. -/
theorem claim3_session_cap
    (m : String) (roleReq de ua : Option String) (now : Nat) (st : Store)
    (u : UserRec) (s0 : Session) (rest : List Session)
    (hm : m ≠ "") (hfind : findByMobile st m = some u)
    (hss : u.sessions = s0 :: rest) (hlen : u.sessions.length = 5)
    (hmin : ∀ s ∈ u.sessions, s0.createdAt ≤ s.createdAt)
    (hnow : s0.createdAt ≤ now) :
    (login (some m) (some HARD_CODED_OTP) roleReq de ua now st).fst.status = 200 ∧
    ({ u with
        sessions := (rest ++ [pushedSession de ua now st]),
        lastLogin := some now } : UserRec) ∈
      (login (some m) (some HARD_CODED_OTP) roleReq de ua now st).snd.users ∧
    (rest ++ [pushedSession de ua now st]).length = 5 ∧
    (∀ s ∈ rest ++ [pushedSession de ua now st], s0.createdAt ≤ s.createdAt) ∧
    (∀ mo2 ot2 ro2 de2 ua2 : Option String, ∀ now2 : Nat, ∀ st2 : Store,
      ∀ v ∈ (login mo2 ot2 ro2 de2 ua2 now2 st2).snd.users,
        v ∈ st2.users ∨ v.sessions.length ≤ 5) := by
  have he := login_found_eq m roleReq de ua now st u hm hfind
  have hme := loginSessionMint_eq u de ua now st
  have hrest : rest.length = 4 := by
    rw [hss] at hlen
    simpa using hlen
  have hcap : capSessions (u.sessions ++ [pushedSession de ua now st]) =
      rest ++ [pushedSession de ua now st] := by
    rw [hss]
    have h6 : ((s0 :: rest) ++ [pushedSession de ua now st]).length = 6 := by
      simp [hrest]
    rw [capSessions_six h6]
    simp
  refine ⟨?_, ?_, ?_, ?_, ?_⟩
  · rw [he, hme]
  · rw [he, hme, hcap]
    exact self_mem_saveUser _ _
  · simp [hrest]
  · intro s hs
    rcases List.mem_append.mp hs with h | h
    · exact hmin s (by rw [hss]; exact List.mem_cons.mpr (Or.inr h))
    · have : s = pushedSession de ua now st := by simpa using h
      rw [this]
      exact hnow
  · intro mo2 ot2 ro2 de2 ua2 now2 st2 v hv
    exact login_sessions_bound mo2 ot2 ro2 de2 ua2 now2 st2 v hv

theorem claim3_session_cap_witness :
    (login (some "5550005555") (some HARD_CODED_OTP) none none none 500 stV).fst.status = 200 ∧
    ({ uE with
        sessions := ([mkSess 2, mkSess 3, mkSess 4, mkSess 5] ++
          [pushedSession none none 500 stV]),
        lastLogin := some 500 } : UserRec) ∈
      (login (some "5550005555") (some HARD_CODED_OTP) none none none 500 stV).snd.users ∧
    ([mkSess 2, mkSess 3, mkSess 4, mkSess 5] ++ [pushedSession none none 500 stV]).length = 5 ∧
    (∀ s ∈ [mkSess 2, mkSess 3, mkSess 4, mkSess 5] ++ [pushedSession none none 500 stV],
      (mkSess 1).createdAt ≤ s.createdAt) ∧
    (∀ mo2 ot2 ro2 de2 ua2 : Option String, ∀ now2 : Nat, ∀ st2 : Store,
      ∀ v ∈ (login mo2 ot2 ro2 de2 ua2 now2 st2).snd.users,
        v ∈ st2.users ∨ v.sessions.length ≤ 5) :=
  claim3_session_cap "5550005555" none none none 500 stV uE (mkSess 1)
    [mkSess 2, mkSess 3, mkSess 4, mkSess 5]
    (by decide) rfl rfl rfl (by decide) (by decide)

/-- C10: mobile+OTP login never fails for an unknown identity. When the OTP
equals the fixed accepted value and no user has the given mobile number, a
fresh user record is created with that mobile, the role from the request (or
the `"customer"` default), and the call succeeds having appended exactly one
session to the new user. -/
theorem claim10_login_autocreates
    (m : String) (roleReq de ua : Option String) (now : Nat) (st : Store)
    (hm : m ≠ "") (hnone : findByMobile st m = none) :
    (login (some m) (some HARD_CODED_OTP) roleReq de ua now st).fst.status = 200 ∧
    (login (some m) (some HARD_CODED_OTP) roleReq de ua now st).fst.success = true ∧
    ∃ w, findByMobile (login (some m) (some HARD_CODED_OTP) roleReq de ua now st).snd m =
        some w ∧
      w.uid = st.nextId ∧ w.mobile = some m ∧ w.role = orDefault roleReq "customer" ∧
      w.sessions.length = 1 := by
  have he := login_create_eq m roleReq de ua now st hm hnone
  set u0 : UserRec :=
    { uid := st.nextId, mobile := some m, email := none, passwordHash := none,
      role := orDefault roleReq "customer", sessions := [], lastLogin := none } with hu0
  set stb : Store := saveUser { st with nextId := st.nextId + 1 } u0 with hstb
  have hme := loginSessionMint_eq u0 de ua now stb
  have hcap : capSessions (u0.sessions ++ [pushedSession de ua now stb]) =
      [pushedSession de ua now stb] := by
    rw [hu0]
    refine capSessions_eq_of_small ?_
    simp
  set u1 : UserRec :=
    { u0 with sessions := capSessions (u0.sessions ++ [pushedSession de ua now stb]),
              lastLogin := some now } with hu1
  refine ⟨by rw [he, hme], by rw [he, hme], u1, ?_, by rw [hu1, hu0], by rw [hu1, hu0],
    by rw [hu1, hu0], by rw [hu1, hcap]; simp⟩
  rw [he, hme]
  show (saveUser { stb with nextId := stb.nextId + 1 + 1 } u1).users.find?
      (fun u => u.mobile == some m) = some u1
  have hnall : ∀ x ∈ st.users, (x.mobile == some m) = false := by
    intro x hx
    have := List.find?_eq_none.mp hnone x hx
    simpa using this
  refine find?_eq_some_of_all _ _ u1 (self_mem_saveUser _ _) (by rw [hu1, hu0]; simp) ?_
  intro x hx hpx
  by_cases hxu : x.uid = u1.uid
  · exact saveUser_uid_unique hx hxu
  · exfalso
    rcases mem_saveUser_cases hx with h | h
    · rcases mem_saveUser_cases h with h2 | h2
      · rw [hnall x h2] at hpx
        simp at hpx
      · apply hxu
        rw [h2, hu1]
    · exact hxu (by rw [h])

theorem claim10_login_autocreates_witness :
    (login (some "1112223333") (some HARD_CODED_OTP) (some "worker") none none 700 stW).fst.status
      = 200 ∧
    (login (some "1112223333") (some HARD_CODED_OTP) (some "worker") none none 700 stW).fst.success
      = true ∧
    ∃ w, findByMobile
        (login (some "1112223333") (some HARD_CODED_OTP) (some "worker") none none 700 stW).snd
        "1112223333" = some w ∧
      w.uid = stW.nextId ∧ w.mobile = some "1112223333" ∧
      w.role = orDefault (some "worker") "customer" ∧ w.sessions.length = 1 :=
  claim10_login_autocreates "1112223333" (some "worker") none none 700 stW
    (by decide) (by decide)



theorem saveUser_eq_self {st : Store} {u : UserRec} (hu : u ∈ st.users)
    (huniq : ∀ v ∈ st.users, v.uid = u.uid → v = u) : saveUser st u = st := by
  unfold saveUser
  have hany : st.users.any (fun v => v.uid == u.uid) = true :=
    List.any_eq_true.mpr ⟨u, hu, by simp⟩
  rw [if_pos hany]
  have hmap : st.users.map (fun v => if v.uid == u.uid then u else v) = st.users := by
    have h1 : ∀ v ∈ st.users, (fun v => if v.uid == u.uid then u else v) v = id v := by
      intro v hv
      by_cases hvu : (v.uid == u.uid) = true
      · simp only [if_pos hvu, id]
        exact (huniq v hv (by simpa using hvu)).symm
      · simp only [if_neg hvu, id]
    rw [List.map_congr_left h1, List.map_id]
  rw [hmap]

theorem filter_ne_hash_eq_self {ss : List Session} {h : Nat}
    (hno : ∀ s ∈ ss, s.refreshTokenHash ≠ h) :
    ss.filter (fun s => s.refreshTokenHash != h) = ss :=
  List.filter_eq_self.mpr (fun s hs => by simpa [bne_iff_ne] using hno s hs)

theorem verifyRefresh_none_mono {t : RToken} {now now2 : Nat}
    (h : verifyRefresh t now = none) (hm : now ≤ now2) : verifyRefresh t now2 = none := by
  cases t with
  | malformed s => rfl
  | signed sub rid exp =>
    simp only [verifyRefresh] at h ⊢
    by_cases hlt : now < exp
    · rw [if_pos hlt] at h
      simp at h
    · rw [if_neg (by omega : ¬ now2 < exp)]

theorem verifyRefresh_some_cases {t : RToken} {now : Nat} {pay : RPayload}
    (h : verifyRefresh t now = some pay) (now2 : Nat) :
    verifyRefresh t now2 = none ∨ verifyRefresh t now2 = some pay := by
  cases t with
  | malformed s => simp [verifyRefresh] at h
  | signed sub rid exp =>
    simp only [verifyRefresh] at h ⊢
    by_cases hlt : now < exp
    · rw [if_pos hlt] at h
      by_cases hlt2 : now2 < exp
      · right
        rw [if_pos hlt2]
        exact h
      · left
        rw [if_neg hlt2]
    · rw [if_neg hlt] at h
      simp at h

theorem logout_idem_aux (t : RToken) (now now2 : Nat) (st : Store)
    (hmono : now ≤ now2) :
    (logout (some t) now2 (logout (some t) now st).snd).snd =
      (logout (some t) now st).snd := by
  cases hv : verifyRefresh t now with
  | none =>
    have hsnd : (logout (some t) now st).snd = st := by
      unfold logout
      simp only [hv]
    rw [hsnd]
    have hv2 : verifyRefresh t now2 = none := verifyRefresh_none_mono hv hmono
    unfold logout
    simp only [hv2]
  | some pay =>
    cases hf : findById st pay.sub with
    | none =>
      have hsnd : (logout (some t) now st).snd = st := by
        unfold logout
        simp only [hv, hf]
      rw [hsnd]
      rcases verifyRefresh_some_cases hv now2 with hv2 | hv2
      · unfold logout
        simp only [hv2]
      · unfold logout
        simp only [hv2, hf]
    | some u =>
      have hsnd : (logout (some t) now st).snd =
          saveUser st
            { u with
              sessions :=
                (u.sessions.filter (fun s => s.refreshTokenHash != cryptoHash pay.rid)) } := by
        unfold logout
        simp only [hv, hf]
      rw [hsnd]
      rcases verifyRefresh_some_cases hv now2 with hv2 | hv2
      · unfold logout
        simp only [hv2]
      · have husub : u.uid = pay.sub := uid_of_findById hf
        have hf2 : findById
            (saveUser st
              { u with
                sessions :=
                  (u.sessions.filter (fun s => s.refreshTokenHash != cryptoHash pay.rid)) })
            pay.sub =
            some
              { u with
                sessions :=
                  (u.sessions.filter (fun s => s.refreshTokenHash != cryptoHash pay.rid)) } :=
          findById_saveUser_replace hf husub
        unfold logout
        simp only [hv2, hf2]
        have hfil : (u.sessions.filter (fun s => s.refreshTokenHash != cryptoHash pay.rid)).filter
            (fun s => s.refreshTokenHash != cryptoHash pay.rid) =
            u.sessions.filter (fun s => s.refreshTokenHash != cryptoHash pay.rid) := by
          refine List.filter_eq_self.mpr ?_
          intro s hs
          exact @List.of_mem_filter _ (fun x => x.refreshTokenHash != cryptoHash pay.rid) s _ hs
        rw [hfil]
        refine saveUser_eq_self (self_mem_saveUser _ _) ?_
        intro v hv3 hvu
        exact saveUser_uid_unique hv3 hvu

/-- C8: logout is idempotent and always succeeds. Every logout call answers
200 success and clears the transport cookie, whatever the token; a call with
no token, an invalid token, or a validating token whose hash matches no
session leaves the store untouched (for the matched-user case under
uniqueness of the stored user id, which every reachable store satisfies);
and a second logout with the same token at any later time never changes the
state again. -/
theorem claim8_logout_idempotent (tok : Option RToken) (now now2 : Nat) (st : Store)
    (hmono : now ≤ now2) :
    (logout tok now st).fst =
      { status := 200, success := true, message := some "Logged out successfully",
        cookie := CookieEff.clear } ∧
    (tok = none → (logout tok now st).snd = st) ∧
    (∀ t, tok = some t → verifyRefresh t now = none → (logout tok now st).snd = st) ∧
    (∀ t pay u, tok = some t → verifyRefresh t now = some pay →
      findById st pay.sub = some u →
      (∀ s ∈ u.sessions, s.refreshTokenHash ≠ cryptoHash pay.rid) →
      (∀ v ∈ st.users, v.uid = u.uid → v = u) →
      (logout tok now st).snd = st) ∧
    (logout tok now2 (logout tok now st).snd).snd = (logout tok now st).snd := by
  refine ⟨rfl, ?_, ?_, ?_, ?_⟩
  · intro h
    rw [h]
    rfl
  · intro t ht hv
    rw [ht]
    unfold logout
    simp only [hv]
  · intro t pay u ht hv hf hno huniq
    rw [ht]
    unfold logout
    simp only [hv, hf]
    rw [filter_ne_hash_eq_self hno]
    exact saveUser_eq_self (mem_of_findById hf) huniq
  · cases tok with
    | none => rfl
    | some t => exact logout_idem_aux t now now2 st hmono

theorem claim8_logout_idempotent_witness :
    ((logout (some (RToken.malformed "junk")) 40 stW).fst =
      { status := 200, success := true, message := some "Logged out successfully",
        cookie := CookieEff.clear } ∧
    (some (RToken.malformed "junk") = none →
      (logout (some (RToken.malformed "junk")) 40 stW).snd = stW) ∧
    (∀ t, some (RToken.malformed "junk") = some t → verifyRefresh t 40 = none →
      (logout (some (RToken.malformed "junk")) 40 stW).snd = stW) ∧
    (∀ t pay u, some (RToken.malformed "junk") = some t → verifyRefresh t 40 = some pay →
      findById stW pay.sub = some u →
      (∀ s ∈ u.sessions, s.refreshTokenHash ≠ cryptoHash pay.rid) →
      (∀ v ∈ stW.users, v.uid = u.uid → v = u) →
      (logout (some (RToken.malformed "junk")) 40 stW).snd = stW) ∧
    (logout (some (RToken.malformed "junk")) 60
        (logout (some (RToken.malformed "junk")) 40 stW).snd).snd =
      (logout (some (RToken.malformed "junk")) 40 stW).snd) ∧
    ((logout (some (RToken.signed 1 77 2000)) 40 stW).fst =
      { status := 200, success := true, message := some "Logged out successfully",
        cookie := CookieEff.clear } ∧
    (some (RToken.signed 1 77 2000) = none →
      (logout (some (RToken.signed 1 77 2000)) 40 stW).snd = stW) ∧
    (∀ t, some (RToken.signed 1 77 2000) = some t → verifyRefresh t 40 = none →
      (logout (some (RToken.signed 1 77 2000)) 40 stW).snd = stW) ∧
    (∀ t pay u, some (RToken.signed 1 77 2000) = some t → verifyRefresh t 40 = some pay →
      findById stW pay.sub = some u →
      (∀ s ∈ u.sessions, s.refreshTokenHash ≠ cryptoHash pay.rid) →
      (∀ v ∈ stW.users, v.uid = u.uid → v = u) →
      (logout (some (RToken.signed 1 77 2000)) 40 stW).snd = stW) ∧
    (logout (some (RToken.signed 1 77 2000)) 60
        (logout (some (RToken.signed 1 77 2000)) 40 stW).snd).snd =
      (logout (some (RToken.signed 1 77 2000)) 40 stW).snd) :=
  ⟨claim8_logout_idempotent (some (RToken.malformed "junk")) 40 60 stW (by decide),
   claim8_logout_idempotent (some (RToken.signed 1 77 2000)) 40 60 stW (by decide)⟩



/-- C7: the failure responses of the email+password login are NOT identical
for "unknown identity" versus "wrong proof". In the fixture store user 4 has
email `a@b.c` and a stored digest of `goodpass`. The `workerRoutes.js` email
login answers status 404 for an unknown email but status 401 for a wrong
password (with the same `"Invalid credentials"` body), so the status code
leaks which sub-condition occurred; the `auth.controller.js` variant
(`emailLogin`, the file headed "fixed version") answers the identical
401 response for both causes. No session is created in any of these failure
cases. -/
theorem claim7_login_failure_distinguishable :
    (loginEmail (some "x@y.z") (some "whatever") none none 0 stW).fst.status = 404 ∧
    (loginEmail (some "a@b.c") (some "badpass") none none 0 stW).fst.status = 401 ∧
    (loginEmail (some "x@y.z") (some "whatever") none none 0 stW).fst.error =
      (loginEmail (some "a@b.c") (some "badpass") none none 0 stW).fst.error ∧
    (loginEmail (some "x@y.z") (some "whatever") none none 0 stW).fst.status ≠
      (loginEmail (some "a@b.c") (some "badpass") none none 0 stW).fst.status ∧
    (loginEmail (some "x@y.z") (some "whatever") none none 0 stW).snd = stW ∧
    (loginEmail (some "a@b.c") (some "badpass") none none 0 stW).snd = stW ∧
    (emailLoginCtrl (some "x@y.z") (some "whatever") none none 0 stW).fst =
      (emailLoginCtrl (some "a@b.c") (some "badpass") none none 0 stW).fst ∧
    (emailLoginCtrl (some "x@y.z") (some "whatever") none none 0 stW).fst.status = 401 ∧
    (emailLoginCtrl (some "x@y.z") (some "whatever") none none 0 stW).snd = stW ∧
    (emailLoginCtrl (some "a@b.c") (some "badpass") none none 0 stW).snd = stW := by
  decide



theorem mem_replaceFirstHash {ss : List Session} {h nh now : Nat} {x : Session}
    (hx : x ∈ replaceFirstHash ss h nh now) :
    x ∈ ss ∨ ∃ s ∈ ss, x = { s with refreshTokenHash := nh, lastUsedAt := now } := by
  induction ss with
  | nil => simp [replaceFirstHash] at hx
  | cons t ts ih =>
    by_cases ht : (t.refreshTokenHash == h) = true
    · simp only [replaceFirstHash, ht, if_pos rfl] at hx
      rcases List.mem_cons.mp hx with h1 | h1
      · exact Or.inr ⟨t, by simp, h1⟩
      · exact Or.inl (List.mem_cons.mpr (Or.inr h1))
    · have ht2 : (t.refreshTokenHash == h) = false := Bool.eq_false_iff.mpr ht
      simp only [replaceFirstHash, ht2, Bool.false_eq_true, if_false] at hx
      rcases List.mem_cons.mp hx with h1 | h1
      · exact Or.inl (List.mem_cons.mpr (Or.inl h1))
      · rcases ih h1 with h2 | ⟨s, hs, hx2⟩
        · exact Or.inl (List.mem_cons.mpr (Or.inr h2))
        · exact Or.inr ⟨s, List.mem_cons.mpr (Or.inr hs), hx2⟩

theorem mint_preserves_hashed {u : UserRec} {de ua : Option String} {now : Nat} {st : Store}
    (hu : ∀ s ∈ u.sessions, sessionHashed s) (hst : storeHashed st) :
    storeHashed (loginSessionMint u de ua now st).snd := by
  rw [loginSessionMint_eq]
  intro v hv s hs
  rcases mem_saveUser_cases hv with h1 | h1
  · exact hst v h1 s hs
  · rw [h1] at hs
    rcases List.mem_append.mp (mem_capSessions hs) with h2 | h2
    · exact hu s h2
    · have hps : s = pushedSession de ua now st := by simpa using h2
      exact ⟨st.nextId, by rw [hps]; rfl⟩

theorem login_preserves_storeHashed (mo ot ro de ua : Option String) (now : Nat) (st : Store)
    (hst : storeHashed st) : storeHashed (login mo ot ro de ua now st).snd := by
  unfold login
  by_cases h1 : (falsyStr mo || falsyStr ot) = true
  · simp only [h1, if_true]
    exact hst
  · simp only [Bool.not_eq_true] at h1
    simp only [h1, Bool.false_eq_true, if_false]
    by_cases h2 : (ot.getD "" != HARD_CODED_OTP) = true
    · simp only [h2, if_true]
      exact hst
    · simp only [Bool.not_eq_true] at h2
      simp only [h2, Bool.false_eq_true, if_false]
      cases hf : findByMobile st (mo.getD "") with
      | some u =>
        exact mint_preserves_hashed
          (fun s hs => hst u (mem_of_findByMobile hf) s hs) hst
      | none =>
        refine mint_preserves_hashed (fun s hs => by simp at hs) ?_
        intro v hv s hs
        rcases mem_saveUser_cases hv with h3 | h3
        · exact hst v h3 s hs
        · rw [h3] at hs
          simp at hs

theorem refresh_preserves_storeHashed (tok : Option RToken) (now : Nat) (st : Store)
    (hst : storeHashed st) : storeHashed (refresh tok now st).snd := by
  unfold refresh
  cases tok with
  | none => exact hst
  | some t =>
    cases hv : verifyRefresh t now with
    | none =>
      simp only [hv]
      exact hst
    | some payload =>
      simp only [hv]
      cases hf : findById st payload.sub with
      | none => exact hst
      | some u =>
        cases hs : u.sessions.find? (fun s => s.refreshTokenHash == cryptoHash payload.rid) with
        | none =>
          simp only [hs]
          exact hst
        | some sess =>
          simp only [hs]
          by_cases hex : sess.expiresAt < now
          · simp only [if_pos hex]
            intro v hv2 s hs2
            rcases mem_saveUser_cases hv2 with h1 | h1
            · exact hst v h1 s hs2
            · rw [h1] at hs2
              exact hst u (mem_of_findById hf) s (List.mem_of_mem_filter hs2)
          · simp only [if_neg hex, genRefreshId, freshId]
            intro v hv2 s hs2
            rcases mem_saveUser_cases hv2 with h1 | h1
            · exact hst v h1 s hs2
            · rw [h1] at hs2
              rcases mem_replaceFirstHash hs2 with h2 | ⟨s0, hs0, hx⟩
              · exact hst u (mem_of_findById hf) s h2
              · exact ⟨st.nextId, by rw [hx]⟩

/-- C4: hashing discipline for stored refresh secrets. (a) A login mint sets
the refresh cookie to a token carrying correlation identifier `st.nextId`
and stores, for some user of the resulting store, a session whose
`refreshTokenHash` is `cryptoHash` of that identifier — and is not the
identifier itself. (b) A successful refresh rotation does the same with the
freshly generated identifier. (c) Login and (d) refresh preserve the store
invariant that every stored session hash lies in the image of `cryptoHash`.
(e) `cryptoHash` has no fixed point, so no stored hash equals its own raw
preimage. -/
theorem claim4_hash_discipline
    (u : UserRec) (deM uaM : Option String) (nowM : Nat) (stM : Store)
    (st : Store) (sub rid exp now : Nat) (uR : UserRec) (sR : Session)
    (mo ot ro de ua : Option String) (nowL : Nat) (stL : Store)
    (tokP : Option RToken) (nowP : Nat) (stR : Store)
    (hstL : storeHashed stL) (hstR : storeHashed stR)
    (hfind : findById st sub = some uR)
    (hsess : uR.sessions.find? (fun x => x.refreshTokenHash == cryptoHash rid) = some sR)
    (hexp : ¬ sR.expiresAt < now) (hnow : now < exp) :
    ((loginSessionMint u deM uaM nowM stM).fst.cookie =
        CookieEff.set (signRefresh u.uid stM.nextId nowM) ∧
      ∃ w ∈ (loginSessionMint u deM uaM nowM stM).snd.users,
        ∃ s ∈ w.sessions, s.refreshTokenHash = cryptoHash stM.nextId ∧
          s.refreshTokenHash ≠ stM.nextId) ∧
    ((refresh (some (RToken.signed sub rid exp)) now st).fst.cookie =
        CookieEff.set (signRefresh uR.uid st.nextId now) ∧
      ∃ w ∈ (refresh (some (RToken.signed sub rid exp)) now st).snd.users,
        ∃ s ∈ w.sessions, s.refreshTokenHash = cryptoHash st.nextId ∧
          s.refreshTokenHash ≠ st.nextId) ∧
    storeHashed (login mo ot ro de ua nowL stL).snd ∧
    storeHashed (refresh tokP nowP stR).snd ∧
    (∀ r : Nat, cryptoHash r ≠ r) := by
  refine ⟨⟨?_, ?_⟩, ⟨?_, ?_⟩, ?_, ?_, cryptoHash_ne_raw⟩
  · rw [loginSessionMint_eq]
  · rw [loginSessionMint_eq]
    refine ⟨_, self_mem_saveUser _ _, pushedSession deM uaM nowM stM, ?_, rfl, ?_⟩
    · exact self_mem_capSessions_append _ _
    · exact cryptoHash_ne_raw stM.nextId
  · rw [refresh_success_eq hfind hsess hexp hnow]
  · rw [refresh_success_eq hfind hsess hexp hnow]
    obtain ⟨pre, post, he, hpre, hrep⟩ :=
      replaceFirstHash_decomp uR.sessions (cryptoHash rid) (cryptoHash st.nextId) now sR hsess
    refine ⟨_, self_mem_saveUser _ _,
      { sR with refreshTokenHash := cryptoHash st.nextId, lastUsedAt := now }, ?_, rfl, ?_⟩
    · show _ ∈ replaceFirstHash uR.sessions (cryptoHash rid) (cryptoHash st.nextId) now
      rw [hrep]
      exact List.mem_append.mpr (Or.inr (List.mem_cons.mpr (Or.inl rfl)))
    · exact cryptoHash_ne_raw st.nextId
  · exact login_preserves_storeHashed mo ot ro de ua nowL stL hstL
  · exact refresh_preserves_storeHashed tokP nowP stR hstR

theorem stV_hashed : storeHashed stV := by
  intro v hv s hs
  have hv2 : v = uE := by simpa [stV] using hv
  subst hv2
  have hs2 : s = mkSess 1 ∨ s = mkSess 2 ∨ s = mkSess 3 ∨ s = mkSess 4 ∨ s = mkSess 5 := by
    simpa [uE] using hs
  rcases hs2 with h | h | h | h | h
  · exact ⟨1, by rw [h]; rfl⟩
  · exact ⟨2, by rw [h]; rfl⟩
  · exact ⟨3, by rw [h]; rfl⟩
  · exact ⟨4, by rw [h]; rfl⟩
  · exact ⟨5, by rw [h]; rfl⟩

theorem claim4_hash_discipline_witness :
    ((loginSessionMint uB none none 50 stW).fst.cookie =
        CookieEff.set (signRefresh uB.uid stW.nextId 50) ∧
      ∃ w ∈ (loginSessionMint uB none none 50 stW).snd.users,
        ∃ s ∈ w.sessions, s.refreshTokenHash = cryptoHash stW.nextId ∧
          s.refreshTokenHash ≠ stW.nextId) ∧
    ((refresh (some (RToken.signed 1 5 2000)) 10 stW).fst.cookie =
        CookieEff.set (signRefresh uA.uid stW.nextId 10) ∧
      ∃ w ∈ (refresh (some (RToken.signed 1 5 2000)) 10 stW).snd.users,
        ∃ s ∈ w.sessions, s.refreshTokenHash = cryptoHash stW.nextId ∧
          s.refreshTokenHash ≠ stW.nextId) ∧
    storeHashed (login (some "9990001111") (some HARD_CODED_OTP) none none none 60 stV).snd ∧
    storeHashed (refresh (some (RToken.signed 1 6 3000)) 20 stV).snd ∧
    (∀ r : Nat, cryptoHash r ≠ r) :=
  claim4_hash_discipline uB none none 50 stW stW 1 5 2000 10 uA sA
    (some "9990001111") (some HARD_CODED_OTP) none none none 60 stV
    (some (RToken.signed 1 6 3000)) 20 stV
    stV_hashed stV_hashed rfl rfl (by decide) (by decide)


end Backend1
